import Mathlib

set_option maxRecDepth 100000
set_option maxHeartbeats 2000000

/-!
Verification of the `ParentERC6492Validator` contract
(`src/contracts/ParentERC6492Validator.sol`).

The contract is shallowly embedded: calldata byte strings become `List Nat`,
256-bit EVM words become `Nat` taken modulo `2 ^ 256` where the EVM truncates,
contract storage becomes an explicit `RegState` record, and the blockchain
environment visible to the contract (keccak256, `extcodesize`, `staticcall`,
`ecrecover`, `block.timestamp`, `block.chainid`) becomes an explicit `Env`
record of functions.  A `staticcall` cannot modify state, so the whole of one
validation call sees a single immutable `Env`.  Reverts are modelled with
`Except`: `.error` is a revert, and since the EVM rolls back state on revert,
every error outcome of `validateUserOp` is paired with the caller's state.
-/

-- ===== Bytes and words =====

/-- Big-endian interpretation of a byte list as a natural number. -/
def beBytesToNat (l : List Nat) : Nat :=
  l.foldl (fun acc b => acc * 256 + b) 0

/-- A 256-bit EVM word read from a byte list (big-endian, truncated to 256 bits). -/
def wordOfBytes (l : List Nat) : Nat :=
  beBytesToNat l % 2 ^ 256

/-- Big-endian encoding of `n` into exactly `len` bytes (most significant first). -/
def natToBe : Nat → Nat → List Nat
  | _, 0 => []
  | n, len + 1 => natToBe (n / 256) len ++ [n % 256]

/-- A 32-byte big-endian word, as produced by `abi.encode` for one head slot. -/
def natToBe32 (n : Nat) : List Nat := natToBe n 32

/-- `calldataload(base + off)` over a byte string: the 32-byte word at offset `off`. -/
def readWord (b : List Nat) (off : Nat) : Nat :=
  wordOfBytes ((b.drop off).take 32)

/-- The `mload(add(signature, mload(signature)))` read in `_verifyERC6492Signature`:
the last 32 bytes of the byte string (only used when the length is at least 32). -/
def lastWord32 (b : List Nat) : Nat :=
  wordOfBytes (b.drop (b.length - 32))

/-- Consecutive 32-byte words starting at `pos` (used for `bytes32[]` decoding). -/
def readWords (b : List Nat) (pos : Nat) : Nat → List Nat
  | 0 => []
  | n + 1 => readWord b pos :: readWords b (pos + 32) n

-- ===== Contract constants =====

/-- `ERC6492_MAGIC` from the contract. -/
def ERC6492_MAGIC : Nat :=
  0x6492649264926492649264926492649264926492649264926492649264926492

/-- `ERC1271_MAGIC` (`bytes4 0x1626ba7e`) from the contract, as a 4-byte value. -/
def ERC1271_MAGIC : Nat := 0x1626ba7e

/-- `GAS_ESTIMATION_MARKER` from the contract. -/
def GAS_ESTIMATION_MARKER : Nat :=
  0x67617365737469670000000000000000000000000000000000000000000000ff

/-- `ENTRYPOINT_V07` constant from the contract. -/
def ENTRYPOINT_V07 : Nat := 0x0000000071727De22E5E9d8BAf0edAc6f37da032

/-- `type(uint48).max`. -/
def UINT48_MAX : Nat := 2 ^ 48 - 1

/-- The secp256k1 half-order bound used by OpenZeppelin ECDSA for malleability. -/
def SECP256K1_HALF_N : Nat :=
  0x7FFFFFFFFFFFFFFFFFFFFFFFFFFFFFFF5D576E7357A4501DDFE92F46681B20A0

/-- Maximum ABI offset/length accepted by Solidity's generated decoders. -/
def ABI_MAX : Nat := 0xffffffffffffffff

-- ===== Error model =====

/-- A low-level EVM revert raised inside the view-only signature helpers
(e.g. by `abi.decode` or by OpenZeppelin `ECDSA.recover`). -/
inductive EvmError where
  | revert
deriving DecidableEq, Repr

/-- Terminal failure of a state-changing entry point.  The named constructors
are the contract's custom errors; `.revert` stands for a plain revert bubbling
up from `abi.decode`, checked arithmetic or a nested helper. -/
inductive VErr where
  | notInitialized
  | alreadyInitialized
  | invalidParent
  | invalidNonce
  | expiredApproval
  | scopeMismatch
  | invalidMerkleProof
  | invalidSignature
  | revert
deriving DecidableEq, Repr

-- ===== Data model =====

/-- `MultiChainApproval` struct from the contract. -/
structure MultiChainApproval where
  approvalNonce : Nat
  validUntil : Nat
  merkleRoot : Nat
  merkleProof : List Nat
  parentSig6492 : List Nat
  scope : Nat
deriving DecidableEq, Repr

/-- `PackedUserOperation` struct from the contract (EntryPoint 0.7 layout). -/
structure PackedUserOperation where
  sender : Nat
  nonce : Nat
  initCode : List Nat
  callData : List Nat
  accountGasLimits : Nat
  preVerificationGas : Nat
  gasFees : Nat
  paymasterAndData : List Nat
  signature : List Nat

/-- The contract's storage: the three per-child mappings. -/
structure RegState where
  parentOf : Nat → Nat
  nonceOf : Nat → Nat
  scopeOf : Nat → Nat

/-- Storage of a freshly deployed contract: every mapping slot is zero. -/
def initState : RegState :=
  { parentOf := fun _ => 0, nonceOf := fun _ => 0, scopeOf := fun _ => 0 }

/-- Point update of a mapping (`m[k] = v`). -/
def updMap (f : Nat → Nat) (k v : Nat) : Nat → Nat :=
  fun x => if x = k then v else f x

/-- The blockchain environment a single call observes.  `staticcall` returns
`none` on call failure and `some returndata` on success; being static it can
not change any of the other fields, so one `Env` serves a whole call. -/
structure Env where
  keccak : List Nat → Nat
  codeLen : Nat → Nat
  staticcall : Nat → List Nat → Option (List Nat)
  ecrecover : Nat → Nat → Nat → Nat → Nat
  timestamp : Nat
  chainid : Nat

-- ===== ABI encoding / decoding =====

/-- Solidity `abi.decode(result, (bytes4))`: needs a full 32-byte word whose
low 224 bits are clean, otherwise it reverts. -/
def decodeBytes4 (b : List Nat) : Except EvmError Nat :=
  if b.length < 32 then .error .revert
  else
    let w := readWord b 0
    if w % 2 ^ 224 ≠ 0 then .error .revert
    else .ok (w / 2 ^ 224)

/-- Decode one dynamic `bytes` member whose data area starts at `pos`. -/
def decodeBytesAt (b : List Nat) (pos : Nat) : Except EvmError (List Nat) :=
  if b.length < pos + 32 then .error .revert
  else
    let len := readWord b pos
    if ABI_MAX < len then .error .revert
    else if b.length < pos + 32 + len then .error .revert
    else .ok ((b.drop (pos + 32)).take len)

/-- Decode one dynamic `bytes32[]` member whose data area starts at `pos`. -/
def decodeWord32ArrayAt (b : List Nat) (pos : Nat) : Except EvmError (List Nat) :=
  if b.length < pos + 32 then .error .revert
  else
    let n := readWord b pos
    if ABI_MAX < n then .error .revert
    else if b.length < pos + 32 + 32 * n then .error .revert
    else .ok (readWords b (pos + 32) n)

/-- `abi.decode(wrappedData, (address, bytes, bytes))` used by
`_verifyERC6492WrappedSignature`. -/
def decodeWrapper (b : List Nat) :
    Except EvmError (Nat × List Nat × List Nat) :=
  if b.length < 96 then .error .revert
  else
    let fa := readWord b 0
    if 2 ^ 160 ≤ fa then .error .revert
    else
      let o1 := readWord b 32
      if ABI_MAX < o1 then .error .revert
      else
        match decodeBytesAt b o1 with
        | .error e => .error e
        | .ok factoryCalldata =>
          let o2 := readWord b 64
          if ABI_MAX < o2 then .error .revert
          else
            match decodeBytesAt b o2 with
            | .error e => .error e
            | .ok originalSig => .ok (fa, factoryCalldata, originalSig)

/-- `abi.decode(signature, (MultiChainApproval))` from `_decodeApproval`:
one top-level offset word, a six-word struct head
(`approvalNonce`, `validUntil` with `uint48` cleanup, `merkleRoot`,
offset of `merkleProof`, offset of `parentSig6492`, `scope`),
then the two dynamic tails. -/
def decodeApproval (b : List Nat) : Except EvmError MultiChainApproval :=
  if b.length < 32 then .error .revert
  else
    let o := readWord b 0
    if ABI_MAX < o then .error .revert
    else if b.length < o + 192 then .error .revert
    else
      let approvalNonce := readWord b o
      let validUntil := readWord b (o + 32)
      if 2 ^ 48 ≤ validUntil then .error .revert
      else
        let merkleRoot := readWord b (o + 64)
        let offProof := readWord b (o + 96)
        if ABI_MAX < offProof then .error .revert
        else
          match decodeWord32ArrayAt b (o + offProof) with
          | .error e => .error e
          | .ok merkleProof =>
            let offSig := readWord b (o + 128)
            if ABI_MAX < offSig then .error .revert
            else
              match decodeBytesAt b (o + offSig) with
              | .error e => .error e
              | .ok parentSig6492 =>
                .ok { approvalNonce := approvalNonce, validUntil := validUntil,
                      merkleRoot := merkleRoot, merkleProof := merkleProof,
                      parentSig6492 := parentSig6492,
                      scope := readWord b (o + 160) }

/-- `abi.decode(data, (address, uint256, bytes32))` used by `onInstall`. -/
def decodeInstallData (b : List Nat) : Except EvmError (Nat × Nat × Nat) :=
  if b.length < 96 then .error .revert
  else
    let a := readWord b 0
    if 2 ^ 160 ≤ a then .error .revert
    else .ok (a, readWord b 32, readWord b 64)

/-- `abi.encodeWithSelector(0x1626ba7e, hash, signature)` — the calldata of the
ERC-1271 `isValidSignature(bytes32,bytes)` probe, with the dynamic `bytes`
argument padded to a 32-byte boundary. -/
def encodeIsValidSignatureCall (hash : Nat) (sig : List Nat) : List Nat :=
  [0x16, 0x26, 0xba, 0x7e] ++ natToBe32 hash ++ natToBe32 64 ++
    natToBe32 sig.length ++ sig ++ List.replicate ((32 - sig.length % 32) % 32) 0

-- ===== Hashing =====

/-- ASCII bytes of a Lean string (used for the EIP-712 type strings and the
personal-sign prefix, whose keccak hashes the contract takes as constants). -/
def strBytes (s : String) : List Nat :=
  s.toUTF8.toList.map (fun b => b.toNat)

/-- The type string hashed into `LEAF_TYPEHASH`. -/
def leafTypeString : String :=
  "Leaf(uint256 chainId,address child,address entryPoint,bytes32 userOpHash)"

/-- The type string hashed into `APPROVAL_TYPEHASH`. -/
def approvalTypeString : String :=
  "Approval(address child,bytes32 merkleRoot,uint256 nonce,uint48 validUntil,bytes32 scope)"

/-- `LEAF_TYPEHASH` (keccak256 of the leaf type string). -/
def LEAF_TYPEHASH (kec : List Nat → Nat) : Nat := kec (strBytes leafTypeString)

/-- `APPROVAL_TYPEHASH` (keccak256 of the approval type string). -/
def APPROVAL_TYPEHASH (kec : List Nat → Nat) : Nat := kec (strBytes approvalTypeString)

/-- `_computeLeafHash`: `keccak256(abi.encode(LEAF_TYPEHASH, chainId, child, entryPoint, userOpHash))`. -/
def computeLeafHash (kec : List Nat → Nat)
    (chainId child entryPoint userOpHash : Nat) : Nat :=
  kec (natToBe32 (LEAF_TYPEHASH kec) ++ natToBe32 chainId ++ natToBe32 child ++
       natToBe32 entryPoint ++ natToBe32 userOpHash)

/-- `_computeApprovalHash`: `keccak256(abi.encode(APPROVAL_TYPEHASH, child, merkleRoot, nonce, validUntil, scope))`. -/
def computeApprovalHash (kec : List Nat → Nat)
    (child merkleRoot nonce validUntil scope : Nat) : Nat :=
  kec (natToBe32 (APPROVAL_TYPEHASH kec) ++ natToBe32 child ++ natToBe32 merkleRoot ++
       natToBe32 nonce ++ natToBe32 validUntil ++ natToBe32 scope)

/-- The `"\x19Ethereum Signed Message:\n32"` prefix of
`MessageHashUtils.toEthSignedMessageHash`. -/
def ethSignedPrefix : String := "\x19Ethereum Signed Message:\n32"

/-- `MessageHashUtils.toEthSignedMessageHash(bytes32)`. -/
def toEthSignedMessageHash (kec : List Nat → Nat) (h : Nat) : Nat :=
  kec (strBytes ethSignedPrefix ++ natToBe32 h)

-- ===== Merkle verification =====

/-- Modelled from the spec: `MerkleProof` is the OpenZeppelin library imported
by the contract and is not part of `src/`; §4.2 of the spec describes it as the
canonical ascending-pair combine.  Hash a pair of nodes in numeric order. -/
def hashPair (kec : List Nat → Nat) (a b : Nat) : Nat :=
  if a < b then kec (natToBe32 a ++ natToBe32 b)
  else kec (natToBe32 b ++ natToBe32 a)

/-- Modelled from the spec: `MerkleProof.processProof` — starting from the
leaf, fold each proof element in order with the canonical pair combine. -/
def processProof (kec : List Nat → Nat) (proof : List Nat) (leaf : Nat) : Nat :=
  proof.foldl (fun acc p => hashPair kec acc p) leaf

/-- Modelled from the spec: `MerkleProof.verify(proof, root, leaf)` — recompute
the root bottom-up and compare. -/
def merkleVerify (kec : List Nat → Nat) (proof : List Nat) (root leaf : Nat) : Bool :=
  processProof kec proof leaf == root

-- ===== Signature verification =====

/-- `_verifyERC1271Signature`: staticcall the signer with the ERC-1271 probe;
a failed call or short returndata yields `false`; otherwise the returndata is
`abi.decode`d as `bytes4` (which reverts on fewer than 32 bytes or on dirty
padding) and compared with the magic value. -/
def verifyERC1271 (env : Env) (signer hash : Nat) (sig : List Nat) :
    Except EvmError Bool :=
  match env.staticcall signer (encodeIsValidSignatureCall hash sig) with
  | none => .ok false
  | some result =>
    if 4 ≤ result.length then
      match decodeBytes4 result with
      | .error e => .error e
      | .ok v => .ok (v == ERC1271_MAGIC)
    else .ok false

/-- OpenZeppelin `ECDSA.recover(bytes32, bytes)` on the 65-byte `r ‖ s ‖ v`
layout: reverts on a wrong length, on a high `s`, and on a zero recovery
result; otherwise returns the recovered address. -/
def ecdsaRecoverBytes (env : Env) (hash : Nat) (sig : List Nat) :
    Except EvmError Nat :=
  if sig.length ≠ 65 then .error .revert
  else
    let r := readWord sig 0
    let s := readWord sig 32
    let v := sig.getD 64 0
    if SECP256K1_HALF_N < s then .error .revert
    else
      let a := env.ecrecover hash v r s
      if a = 0 then .error .revert else .ok a

/-- The direct-key (EOA) fallback branch at the end of
`_verifyERC6492Signature`: hash-and-recover of the personally-signed message,
compared with the expected signer. -/
def verifyEOAPath (env : Env) (signer hash : Nat) (sig : List Nat) :
    Except EvmError Bool :=
  match ecdsaRecoverBytes env (toEthSignedMessageHash env.keccak hash) sig with
  | .error e => .error e
  | .ok recovered => .ok (recovered == signer)

/-- `_simulateAndVerify`: probe the factory with a staticcall, then re-check
whether the signer has code; a staticcall cannot change state, so the same
`Env` answers both code checks. -/
def simulateAndVerify (env : Env) (signer factory : Nat)
    (factoryCalldata : List Nat) (hash : Nat) (originalSig : List Nat) :
    Except EvmError Bool :=
  if 0 < env.codeLen signer then verifyERC1271 env signer hash originalSig
  else
    let _ := env.staticcall factory factoryCalldata
    if 0 < env.codeLen signer then verifyERC1271 env signer hash originalSig
    else .ok false

/-- `_verifyERC6492WrappedSignature`: strip the 32-byte magic suffix, decode
the `(factory, factoryCalldata, originalSig)` wrapper, then verify with
ERC-1271 when the signer is deployed and otherwise simulate. -/
def verifyERC6492Wrapped (env : Env) (signer hash : Nat) (sig : List Nat) :
    Except EvmError Bool :=
  let wrappedData := sig.take (sig.length - 32)
  match decodeWrapper wrappedData with
  | .error e => .error e
  | .ok (factory, factoryCalldata, originalSig) =>
    if 0 < env.codeLen signer then verifyERC1271 env signer hash originalSig
    else simulateAndVerify env signer factory factoryCalldata hash originalSig

/-- `_verifyERC6492Signature`: dispatch on the trailing ERC-6492 magic word,
then on whether the signer has code, falling back to EOA recovery. -/
def verifyERC6492Signature (env : Env) (signer hash : Nat) (sig : List Nat) :
    Except EvmError Bool :=
  if 32 ≤ sig.length ∧ lastWord32 sig = ERC6492_MAGIC then
    verifyERC6492Wrapped env signer hash sig
  else if 0 < env.codeLen signer then
    verifyERC1271 env signer hash sig
  else
    verifyEOAPath env signer hash sig

-- ===== Lifecycle and validation entry points =====

/-- `onInstall`: reverts when already installed, on a malformed payload, and on
a zero parent; otherwise stores the `(parent, initialNonce, scope)` triple for
the caller. -/
def onInstall (s : RegState) (caller : Nat) (data : List Nat) :
    Except VErr RegState :=
  if s.parentOf caller ≠ 0 then .error .alreadyInitialized
  else
    match decodeInstallData data with
    | .error _ => .error .revert
    | .ok (parent, initialNonce, scope) =>
      if parent = 0 then .error .invalidParent
      else .ok { parentOf := updMap s.parentOf caller parent,
                 nonceOf := updMap s.nonceOf caller initialNonce,
                 scopeOf := updMap s.scopeOf caller scope }

/-- `onUninstall`: deletes all three mapping entries for the caller. -/
def onUninstall (s : RegState) (caller : Nat) : RegState :=
  { parentOf := updMap s.parentOf caller 0,
    nonceOf := updMap s.nonceOf caller 0,
    scopeOf := updMap s.scopeOf caller 0 }

/-- `isInitialized`. -/
def isInitialized (s : RegState) (account : Nat) : Bool :=
  s.parentOf account != 0

/-- `_isGasEstimationSignature`: at least 128 bytes, and the 32-byte word at
calldata offset 96 (the `merkleRoot` slot of the standard encoding) equals the
marker. -/
def isGasEstimationSignature (sig : List Nat) : Bool :=
  if sig.length < 128 then false
  else readWord sig 96 == GAS_ESTIMATION_MARKER

/-- The non-bypass tail of `validateUserOp` (everything from `_decodeApproval`
on): decode, nonce, deadline and scope checks, Merkle membership, ERC-6492
signature check, then the nonce commit.  The state component of the result is
the post-call storage; every failure leaves the input state. -/
def validateFull (s : RegState) (env : Env) (uo : PackedUserOperation)
    (userOpHash : Nat) : Except VErr Nat × RegState :=
  let child := uo.sender
  match decodeApproval uo.signature with
  | .error _ => (.error .revert, s)
  | .ok a =>
    if a.approvalNonce ≠ s.nonceOf child then (.error .invalidNonce, s)
    else if a.validUntil < env.timestamp then (.error .expiredApproval, s)
    else
      let allowedScope := s.scopeOf child
      if allowedScope ≠ 0 ∧ allowedScope ≠ a.scope then (.error .scopeMismatch, s)
      else
        let leaf := computeLeafHash env.keccak env.chainid child ENTRYPOINT_V07 userOpHash
        if merkleVerify env.keccak a.merkleProof a.merkleRoot leaf = false then
          (.error .invalidMerkleProof, s)
        else
          let approvalHash := computeApprovalHash env.keccak child a.merkleRoot
            a.approvalNonce a.validUntil a.scope
          match verifyERC6492Signature env (s.parentOf child) approvalHash a.parentSig6492 with
          | .error _ => (.error .revert, s)
          | .ok false => (.error .invalidSignature, s)
          | .ok true =>
            if a.approvalNonce = 2 ^ 256 - 1 then (.error .revert, s)
            else (.ok (a.validUntil * 2 ^ 48),
                  { s with nonceOf := updMap s.nonceOf child (a.approvalNonce + 1) })

/-- `validateUserOp`: `NotInitialized` guard, then the gas-estimation bypass,
then the full validation path. -/
def validateUserOp (s : RegState) (env : Env) (uo : PackedUserOperation)
    (userOpHash : Nat) : Except VErr Nat × RegState :=
  if s.parentOf uo.sender = 0 then (.error .notInitialized, s)
  else if isGasEstimationSignature uo.signature then
    (.ok (UINT48_MAX * 2 ^ 48), s)
  else validateFull s env uo userOpHash

/-- `isValidSignatureWithSender`: resolve the registered parent and delegate to
`_verifyERC6492Signature`, mapping `true` to the ERC-1271 magic and everything
else to `0xffffffff`; a revert inside verification bubbles up. -/
def isValidSignatureWithSender (s : RegState) (env : Env)
    (sender hash : Nat) (sig : List Nat) : Except EvmError Nat :=
  let parent := s.parentOf sender
  if parent = 0 then .ok 0xffffffff
  else
    match verifyERC6492Signature env parent hash sig with
    | .error e => .error e
    | .ok true => .ok ERC1271_MAGIC
    | .ok false => .ok 0xffffffff

/-- Extract `validAfter` from a packed validation-data word (low 48 bits, per
the packing comment in `validateUserOp`). -/
def unpackValidAfter (v : Nat) : Nat := v % 2 ^ 48

/-- Extract `validUntil` from a packed validation-data word (bits 48–95, per
the packing comment in `validateUserOp`). -/
def unpackValidUntil (v : Nat) : Nat := v / 2 ^ 48 % 2 ^ 48

-- ===== Reachable contract states =====

/-- States reachable from a fresh deployment through the contract's
state-changing entry points.  Failing calls revert and leave the state as it
was, so only successful `onInstall`s, `onUninstall`s and arbitrary
`validateUserOp` outcomes (whose state component already accounts for
failure) generate new states. -/
inductive Reachable : RegState → Prop where
  | init : Reachable initState
  | install (s : RegState) (caller : Nat) (data : List Nat) (s' : RegState) :
      Reachable s → onInstall s caller data = .ok s' → Reachable s'
  | uninstall (s : RegState) (caller : Nat) :
      Reachable s → Reachable (onUninstall s caller)
  | validate (s : RegState) (env : Env) (uo : PackedUserOperation)
      (userOpHash : Nat) (r : Except VErr Nat) (s' : RegState) :
      Reachable s → validateUserOp s env uo userOpHash = (r, s') → Reachable s'

-- ===== Concrete inputs used by witnesses and counterexamples =====

/-- A standard ABI encoding of a `MultiChainApproval` with every field zero:
offset 32, six-word head (nonce 0, validUntil 0, root 0, proof at 192,
parent signature at 224, scope 0), then two empty tails. -/
def sigOK : List Nat :=
  natToBe32 32 ++ natToBe32 0 ++ natToBe32 0 ++ natToBe32 0 ++
  natToBe32 192 ++ natToBe32 224 ++ natToBe32 0 ++ natToBe32 0 ++ natToBe32 0

/-- A 128-byte signature whose `merkleRoot` slot holds the gas-estimation
marker. -/
def gasSig : List Nat :=
  natToBe32 32 ++ natToBe32 0 ++ natToBe32 0 ++ natToBe32 GAS_ESTIMATION_MARKER

/-- A well-formed 32-byte ERC-1271 return: the magic value left-aligned. -/
def erc1271OkReturn : List Nat :=
  [0x16, 0x26, 0xba, 0x7e] ++ List.replicate 28 0

/-- An environment whose keccak is constant zero, where every address has
code, and where every staticcall succeeds with the well-formed ERC-1271
acceptance word. -/
def envAccept : Env :=
  { keccak := fun _ => 0, codeLen := fun _ => 1,
    staticcall := fun _ _ => some erc1271OkReturn,
    ecrecover := fun _ _ _ _ => 0, timestamp := 0, chainid := 1 }

/-- An environment where no address has code and every staticcall fails. -/
def envNoCode : Env :=
  { keccak := fun _ => 0, codeLen := fun _ => 0,
    staticcall := fun _ _ => none,
    ecrecover := fun _ _ _ _ => 0, timestamp := 0, chainid := 1 }

/-- An environment where every address has code and every staticcall succeeds
but returns only the 4 raw magic bytes (no 32-byte ABI word). -/
def envShortReturn : Env :=
  { keccak := fun _ => 0, codeLen := fun _ => 1,
    staticcall := fun _ _ => some [0x16, 0x26, 0xba, 0x7e],
    ecrecover := fun _ _ _ _ => 0, timestamp := 0, chainid := 1 }

/-- Storage where child `2` is installed with parent `7`, nonce `0`, scope `0`. -/
def stateW : RegState :=
  { parentOf := updMap (fun _ => 0) 2 7, nonceOf := fun _ => 0, scopeOf := fun _ => 0 }

/-- A user operation from `sender` carrying `sig`; the remaining fields are
never read by the validator. -/
def mkUserOp (sender : Nat) (sig : List Nat) : PackedUserOperation :=
  { sender := sender, nonce := 0, initCode := [], callData := [],
    accountGasLimits := 0, preVerificationGas := 0, gasFees := 0,
    paymasterAndData := [], signature := sig }

/-- User operation of child `2` with the all-zero approval encoding. -/
def uoOK : PackedUserOperation := mkUserOp 2 sigOK

/-- User operation of child `2` with the gas-estimation marker signature. -/
def uoGas : PackedUserOperation := mkUserOp 2 gasSig

/-- An ERC-6492 wrapped signature: `abi.encode(7, empty bytes, empty bytes)`
followed by the 32-byte magic suffix. -/
def wrappedSigEx : List Nat :=
  natToBe32 7 ++ natToBe32 96 ++ natToBe32 128 ++ natToBe32 0 ++ natToBe32 0 ++
  natToBe32 ERC6492_MAGIC

-- ===== Helper lemmas =====

/-- Reading a mapping at the freshly written key. -/
theorem updMap_same (f : Nat → Nat) (k v : Nat) : updMap f k v k = v := by
  simp [updMap]

/-- Reading a mapping at any other key. -/
theorem updMap_other (f : Nat → Nat) (k v x : Nat) (h : x ≠ k) :
    updMap f k v x = f x := by
  simp [updMap, h]

/-- Case analysis of the non-bypass validation path: it either fails leaving
the storage exactly as given, or succeeds after the decoded nonce matched the
stored one, committing exactly the nonce increment for the sender. -/
theorem validateFull_cases (s : RegState) (env : Env) (uo : PackedUserOperation)
    (h : Nat) :
    (∃ e, validateFull s env uo h = (.error e, s)) ∨
    (∃ a, decodeApproval uo.signature = .ok a ∧
      a.approvalNonce = s.nonceOf uo.sender ∧
      validateFull s env uo h =
        (.ok (a.validUntil * 2 ^ 48),
         { s with nonceOf := updMap s.nonceOf uo.sender (a.approvalNonce + 1) })) := by
  simp only [validateFull]
  split
  · exact Or.inl ⟨.revert, rfl⟩
  next a hdec =>
    split
    · exact Or.inl ⟨.invalidNonce, rfl⟩
    next h1n =>
      split
      · exact Or.inl ⟨.expiredApproval, rfl⟩
      next h2 =>
        split
        · exact Or.inl ⟨.scopeMismatch, rfl⟩
        next h3 =>
          split
          · exact Or.inl ⟨.invalidMerkleProof, rfl⟩
          next h4 =>
            split
            · exact Or.inl ⟨.revert, rfl⟩
            · exact Or.inl ⟨.invalidSignature, rfl⟩
            next hv =>
              split
              · exact Or.inl ⟨.revert, rfl⟩
              next h5 => exact Or.inr ⟨a, hdec, not_not.mp h1n, rfl⟩

/-- Frame property of one validation call: the parent and scope mappings are
never written, and the nonce of any child whose parent slot is zero is never
written either. -/
theorem validateUserOp_frame (s : RegState) (env : Env) (uo : PackedUserOperation)
    (h : Nat) :
    (validateUserOp s env uo h).2.parentOf = s.parentOf ∧
    (validateUserOp s env uo h).2.scopeOf = s.scopeOf ∧
    ∀ c, s.parentOf c = 0 → (validateUserOp s env uo h).2.nonceOf c = s.nonceOf c := by
  by_cases hp : s.parentOf uo.sender = 0
  · simp [validateUserOp, hp]
  · by_cases hg : isGasEstimationSignature uo.signature = true
    · simp [validateUserOp, hp, hg]
    · have hvu : validateUserOp s env uo h = validateFull s env uo h := by
        simp [validateUserOp, hp, hg]
      rw [hvu]
      rcases validateFull_cases s env uo h with ⟨e, hf⟩ | ⟨a, _, _, hf⟩
      · simp [hf]
      · rw [hf]
        refine ⟨rfl, rfl, ?_⟩
        intro c hc
        have hcs : c ≠ uo.sender := fun hEq => hp (hEq ▸ hc)
        simp [updMap, hcs]

/-- Sanity check that the success path of `validateUserOp` is reachable in the
model: with child 2 installed under parent 7, the all-zero approval, a
constant-zero keccak and an accepting ERC-1271 parent, validation succeeds and
the stored nonce becomes 1. -/
theorem validateUserOp_success_example :
    (validateUserOp stateW envAccept uoOK 0).1 = .ok 0 ∧
    (validateUserOp stateW envAccept uoOK 0).2.nonceOf 2 = 1 := by
  constructor
  · rfl
  · rfl

/-- C1 counterexample: the claim quantifies over every call on an installed
child, but a gas-estimation-marker signature is accepted with the stored nonce
left unchanged, so "on SUCCESS the stored nonce is set to exactly the old
value plus 1" fails as stated. -/
theorem C1_counterexample :
    ¬ (∀ (s : RegState) (env : Env) (uo : PackedUserOperation) (h r : Nat)
         (s' : RegState),
        s.parentOf uo.sender ≠ 0 →
        validateUserOp s env uo h = (.ok r, s') →
        s'.nonceOf uo.sender = s.nonceOf uo.sender + 1) := by
  intro hall
  have hx := hall stateW envAccept uoGas 0 (UINT48_MAX * 2 ^ 48) stateW
    (by decide) rfl
  exact absurd hx (by decide)

/-- C1 (amended): for every `validateUserOp` call whose signature does not
carry the gas-estimation marker, an envelope is accepted only if its
`approvalNonce` equals the stored nonce of the sender; on success the stored
nonce becomes exactly the old value plus one and nothing else in the registry
changes; on every failure the registry is completely unchanged. -/
theorem C1_theorem (s : RegState) (env : Env) (uo : PackedUserOperation) (h : Nat)
    (hmark : isGasEstimationSignature uo.signature = false) :
    (∀ r s', validateUserOp s env uo h = (.ok r, s') →
      ∃ a, decodeApproval uo.signature = .ok a ∧
        a.approvalNonce = s.nonceOf uo.sender ∧
        s'.nonceOf uo.sender = s.nonceOf uo.sender + 1 ∧
        s'.parentOf = s.parentOf ∧ s'.scopeOf = s.scopeOf ∧
        (∀ c, c ≠ uo.sender → s'.nonceOf c = s.nonceOf c)) ∧
    (∀ e s', validateUserOp s env uo h = (.error e, s') → s' = s) := by
  constructor
  · intro r s' heq
    by_cases hp : s.parentOf uo.sender = 0
    · rw [validateUserOp, if_pos hp] at heq
      exact absurd (congrArg Prod.fst heq) (by simp)
    · have hvu : validateUserOp s env uo h = validateFull s env uo h := by
        rw [validateUserOp, if_neg hp, hmark]
        simp
      rcases validateFull_cases s env uo h with ⟨e, hf⟩ | ⟨a, hdec, hn, hf⟩
      · rw [hvu, hf] at heq
        exact absurd (congrArg Prod.fst heq) (by simp)
      · rw [hvu, hf] at heq
        injection heq with hA hB
        refine ⟨a, hdec, hn, ?_, ?_, ?_, ?_⟩
        · rw [← hB]
          show updMap s.nonceOf uo.sender (a.approvalNonce + 1) uo.sender =
            s.nonceOf uo.sender + 1
          rw [updMap_same, hn]
        · rw [← hB]
        · rw [← hB]
        · intro c hc
          rw [← hB]
          exact updMap_other _ _ _ _ hc
  · intro e s' heq
    by_cases hp : s.parentOf uo.sender = 0
    · rw [validateUserOp, if_pos hp] at heq
      injection heq with _ hB
      exact hB.symm
    · have hvu : validateUserOp s env uo h = validateFull s env uo h := by
        rw [validateUserOp, if_neg hp, hmark]
        simp
      rcases validateFull_cases s env uo h with ⟨e2, hf⟩ | ⟨a, hdec, hn, hf⟩
      · rw [hvu, hf] at heq
        injection heq with _ hB
        exact hB.symm
      · rw [hvu, hf] at heq
        exact absurd (congrArg Prod.fst heq) (by simp)

/-- C1 witness: the amended theorem applied to the installed child 2 with the
all-zero (marker-free) approval encoding. -/
theorem C1_witness :
    isGasEstimationSignature uoOK.signature = false ∧
    ((∀ r s', validateUserOp stateW envAccept uoOK 0 = (.ok r, s') →
      ∃ a, decodeApproval uoOK.signature = .ok a ∧
        a.approvalNonce = stateW.nonceOf uoOK.sender ∧
        s'.nonceOf uoOK.sender = stateW.nonceOf uoOK.sender + 1 ∧
        s'.parentOf = stateW.parentOf ∧ s'.scopeOf = stateW.scopeOf ∧
        (∀ c, c ≠ uoOK.sender → s'.nonceOf c = stateW.nonceOf c)) ∧
    (∀ e s', validateUserOp stateW envAccept uoOK 0 = (.error e, s') → s' = stateW)) :=
  ⟨by decide, C1_theorem stateW envAccept uoOK 0 (by decide)⟩

/-- C2: for an installed child whose signature carries the gas-estimation
marker, `validateUserOp` returns success immediately with `validAfter = 0`
and `validUntil = type(uint48).max`, independent of the environment and with
the registry untouched. -/
theorem C2_theorem (s : RegState) (env : Env) (uo : PackedUserOperation)
    (h : Nat) (hp : s.parentOf uo.sender ≠ 0)
    (hg : isGasEstimationSignature uo.signature = true) :
    validateUserOp s env uo h = (.ok (UINT48_MAX * 2 ^ 48), s) ∧
    unpackValidUntil (UINT48_MAX * 2 ^ 48) = UINT48_MAX ∧
    unpackValidAfter (UINT48_MAX * 2 ^ 48) = 0 := by
  refine ⟨?_, by decide, by decide⟩
  rw [validateUserOp, if_neg hp, hg]
  simp

/-- C2 witness: applied to the installed child 2 with the marker signature. -/
theorem C2_witness :
    stateW.parentOf uoGas.sender ≠ 0 ∧
    isGasEstimationSignature uoGas.signature = true ∧
    (validateUserOp stateW envAccept uoGas 0 = (.ok (UINT48_MAX * 2 ^ 48), stateW) ∧
     unpackValidUntil (UINT48_MAX * 2 ^ 48) = UINT48_MAX ∧
     unpackValidAfter (UINT48_MAX * 2 ^ 48) = 0) :=
  ⟨by decide, by decide, C2_theorem stateW envAccept uoGas 0 (by decide) (by decide)⟩

/-- C3 counterexample: the claim says a marker-carrying call returns success
regardless of whether the caller has a registry record, but on an uninstalled
child the `NotInitialized` check fires before the gas-estimation bypass. -/
theorem C3_counterexample :
    ¬ (∀ (s : RegState) (env : Env) (uo : PackedUserOperation) (h : Nat),
        isGasEstimationSignature uo.signature = true →
        (validateUserOp s env uo h).1 = .ok (UINT48_MAX * 2 ^ 48)) := by
  intro hall
  have hx := hall initState envAccept uoGas 0 (by decide)
  have hy : (validateUserOp initState envAccept uoGas 0).1 =
      .error .notInitialized := rfl
  rw [hy] at hx
  exact Except.noConfusion hx

/-- C3 (amended): the engine resolves the registry record first — an absent
record fails with `NotInitialized` even when the marker is present — and only
then consults the gas-estimation bypass, which for an installed child returns
success before any other check or state read. -/
theorem C3_theorem (s : RegState) (env : Env) (uo : PackedUserOperation)
    (h : Nat) (hg : isGasEstimationSignature uo.signature = true) :
    validateUserOp s env uo h =
      if s.parentOf uo.sender = 0 then (.error .notInitialized, s)
      else (.ok (UINT48_MAX * 2 ^ 48), s) := by
  by_cases hp : s.parentOf uo.sender = 0
  · rw [validateUserOp, if_pos hp, if_pos hp]
  · rw [validateUserOp, if_neg hp, if_neg hp, hg]
    simp

/-- C3 witness: the amended theorem applied to an uninstalled child with the
marker signature (the `NotInitialized` branch). -/
theorem C3_witness :
    isGasEstimationSignature uoGas.signature = true ∧
    validateUserOp initState envAccept uoGas 0 =
      (if initState.parentOf uoGas.sender = 0 then (.error .notInitialized, initState)
       else (.ok (UINT48_MAX * 2 ^ 48), initState)) :=
  ⟨by decide, C3_theorem initState envAccept uoGas 0 (by decide)⟩

/-- C4 failing input: child 2 is installed with the EOA parent 7 (no code);
querying `isValidSignatureWithSender` with an empty signature reverts inside
OpenZeppelin `ECDSA.recover` (wrong length) instead of returning the reject
value, so the standalone query is not total. -/
theorem C4_theorem :
    isValidSignatureWithSender stateW envNoCode 2 0 [] = .error .revert := by
  rfl

/-- C5 failing input: the deployed parent 9 answers the ERC-1271 probe with
exactly the 4 raw magic bytes; the `result.length >= 4` guard passes but
`abi.decode(result, (bytes4))` needs a full 32-byte word, so the helper
reverts — and the revert propagates out of `isValidSignatureWithSender` —
instead of collapsing to `false`. -/
theorem C5_theorem :
    verifyERC1271 envShortReturn 9 0 [] = .error .revert ∧
    isValidSignatureWithSender stateW envShortReturn 2 0 [] = .error .revert := by
  exact ⟨rfl, rfl⟩

/-- C6 counterexample: for a wrapped signature whose signer already has code,
the contract verifies the inner signature with the deployed-identity ERC-1271
call, not with the direct-key hash-and-recover strategy: with an accepting
ERC-1271 signer and an empty inner signature the wrapped verification
returns `true` while direct-key recovery of the inner signature reverts. -/
theorem C6_counterexample :
    ¬ (∀ (env : Env) (signer hash : Nat) (sig : List Nat) (factory : Nat)
         (factoryCalldata originalSig : List Nat),
        32 ≤ sig.length → lastWord32 sig = ERC6492_MAGIC →
        0 < env.codeLen signer →
        decodeWrapper (sig.take (sig.length - 32)) =
          .ok (factory, factoryCalldata, originalSig) →
        verifyERC6492Signature env signer hash sig =
          verifyEOAPath env signer hash originalSig) := by
  intro hall
  have hx := hall envAccept 5 0 wrappedSigEx 7 [] [] (by decide) (by decide)
    (by decide) rfl
  have h1 : verifyERC6492Signature envAccept 5 0 wrappedSigEx = .ok true := rfl
  have h2 : verifyEOAPath envAccept 5 0 [] = .error .revert := rfl
  rw [h1, h2] at hx
  exact Except.noConfusion hx

/-- C6 (amended): for every signature carrying the trailing ERC-6492 magic
whose claimed signer already has observable code, the wrapper is stripped and
the inner signature is verified with the deployed-identity strategy — the
read-only ERC-1271 call to the signer. -/
theorem C6_theorem (env : Env) (signer hash : Nat) (sig : List Nat)
    (factory : Nat) (factoryCalldata originalSig : List Nat)
    (hlen : 32 ≤ sig.length) (hmagic : lastWord32 sig = ERC6492_MAGIC)
    (hcode : 0 < env.codeLen signer)
    (hdec : decodeWrapper (sig.take (sig.length - 32)) =
      .ok (factory, factoryCalldata, originalSig)) :
    verifyERC6492Signature env signer hash sig =
      verifyERC1271 env signer hash originalSig := by
  unfold verifyERC6492Signature verifyERC6492Wrapped
  rw [if_pos (And.intro hlen hmagic)]
  simp only [hdec]
  simp [hcode]

/-- C6 witness: the amended theorem applied to the concrete wrapped signature
`abi.encode(7, 0x, 0x) ‖ magic` with a deployed, accepting signer. -/
theorem C6_witness :
    32 ≤ wrappedSigEx.length ∧
    lastWord32 wrappedSigEx = ERC6492_MAGIC ∧
    0 < envAccept.codeLen 5 ∧
    decodeWrapper (wrappedSigEx.take (wrappedSigEx.length - 32)) = .ok (7, [], []) ∧
    verifyERC6492Signature envAccept 5 0 wrappedSigEx =
      verifyERC1271 envAccept 5 0 [] :=
  ⟨by decide, by decide, by decide, rfl,
   C6_theorem envAccept 5 0 wrappedSigEx 7 [] [] (by decide) (by decide)
     (by decide) rfl⟩

/-- C7: for a signer without code, `_simulateAndVerify` only issues a
side-effect-free staticcall probe of the factory; since a staticcall cannot
materialize code, the signer still has no code afterwards and verification
fails closed with `false`. -/
theorem C7_theorem (env : Env) (signer factory : Nat) (factoryCalldata : List Nat)
    (hash : Nat) (originalSig : List Nat) (hnc : env.codeLen signer = 0) :
    simulateAndVerify env signer factory factoryCalldata hash originalSig =
      .ok false := by
  simp [simulateAndVerify, hnc]

/-- C7 witness: an undeployed signer under the no-code environment. -/
theorem C7_witness :
    envNoCode.codeLen 5 = 0 ∧
    simulateAndVerify envNoCode 5 7 [] 0 [] = .ok false :=
  ⟨rfl, C7_theorem envNoCode 5 7 [] 0 [] rfl⟩

/-- C8: Merkle verification with an empty proof succeeds exactly when the
leaf equals the root (single-leaf tree round-trip), for every hash function. -/
theorem C8_theorem (kec : List Nat → Nat) (root leaf : Nat) :
    merkleVerify kec [] root leaf = true ↔ leaf = root := by
  simp [merkleVerify, processProof]

/-- Successful installs store a nonzero parent together with the supplied
nonce and scope, all keyed by the caller. -/
theorem onInstall_ok (s : RegState) (caller : Nat) (data : List Nat)
    (s' : RegState) (hok : onInstall s caller data = .ok s') :
    ∃ parent initialNonce scope, parent ≠ 0 ∧
      s' = { parentOf := updMap s.parentOf caller parent,
             nonceOf := updMap s.nonceOf caller initialNonce,
             scopeOf := updMap s.scopeOf caller scope } := by
  unfold onInstall at hok
  split at hok
  · exact absurd hok (by simp)
  · split at hok
    · exact absurd hok (by simp)
    · rename_i parent initialNonce scope hdec
      split at hok
      · exact absurd hok (by simp)
      · rename_i hpz
        injection hok with hok'
        exact ⟨parent, initialNonce, scope, hpz, hok'.symm⟩

/-- C9: in every reachable contract state, a child whose parent slot is zero
also has a zero nonce and a zero scope — install requires a nonzero parent,
uninstall clears all three slots, and validation increments the nonce only
behind the `NotInitialized` guard. -/
theorem C9_theorem (s : RegState) (hr : Reachable s) :
    ∀ c, s.parentOf c = 0 → s.nonceOf c = 0 ∧ s.scopeOf c = 0 := by
  induction hr with
  | init => exact fun c _ => ⟨rfl, rfl⟩
  | install s0 caller data s' _ hok ih =>
    intro c hc
    obtain ⟨parent, initialNonce, scope, hpz, hs'⟩ :=
      onInstall_ok s0 caller data s' hok
    subst hs'
    by_cases hcc : c = caller
    · subst hcc
      simp [updMap] at hc
      exact absurd hc hpz
    · simp [updMap, hcc] at hc ⊢
      exact ih c hc
  | uninstall s0 caller _ ih =>
    intro c hc
    by_cases hcc : c = caller
    · subst hcc
      exact ⟨by simp [onUninstall, updMap], by simp [onUninstall, updMap]⟩
    · simp [onUninstall, updMap, hcc] at hc ⊢
      exact ih c hc
  | validate s0 env uo userOpHash r s' _ heq ih =>
    intro c hc
    obtain ⟨hpar, hsco, hnon⟩ := validateUserOp_frame s0 env uo userOpHash
    rw [heq] at hpar hsco hnon
    have hc0 : s0.parentOf c = 0 := by rw [← hpar]; exact hc
    have hz := ih c hc0
    exact ⟨by rw [show s'.nonceOf = ((r, s').2).nonceOf from rfl, hnon c hc0, hz.1],
           by rw [show s'.scopeOf = ((r, s').2).scopeOf from rfl, hsco, hz.2]⟩

/-- C9 witness: the invariant at the initial state for child 0. -/
theorem C9_witness :
    initState.parentOf 0 = 0 ∧
    (initState.nonceOf 0 = 0 ∧ initState.scopeOf 0 = 0) :=
  ⟨rfl, C9_theorem initState Reachable.init 0 rfl⟩

/-- C10: a signature shorter than 128 bytes can never carry the
gas-estimation marker, so `validateUserOp` for an installed child always
takes the full decode-and-validate path on it. -/
theorem C10_theorem (sig : List Nat) (hlen : sig.length < 128) :
    isGasEstimationSignature sig = false ∧
    ∀ (s : RegState) (env : Env) (uo : PackedUserOperation) (h : Nat),
      uo.signature = sig → s.parentOf uo.sender ≠ 0 →
      validateUserOp s env uo h = validateFull s env uo h := by
  have hg : isGasEstimationSignature sig = false := by
    unfold isGasEstimationSignature
    rw [if_pos hlen]
  refine ⟨hg, ?_⟩
  intro s env uo h hsig hp
  rw [validateUserOp, if_neg hp, hsig, hg]
  simp

/-- C10 witness: the empty signature. -/
theorem C10_witness :
    ([] : List Nat).length < 128 ∧
    (isGasEstimationSignature [] = false ∧
     ∀ (s : RegState) (env : Env) (uo : PackedUserOperation) (h : Nat),
       uo.signature = [] → s.parentOf uo.sender ≠ 0 →
       validateUserOp s env uo h = validateFull s env uo h) :=
  ⟨by decide, C10_theorem [] (by decide)⟩
